import Mathlib

/-!
Shallow embedding of `GeoJson2Rhino.py`: a single-module translator from
GeoJSON feature collections to Rhino document objects (points and curves),
with optional layer creation and string-valued attribute tagging.

Decoded JSON values are modelled by the inductive `JVal` (Python's parsed
JSON: `None`, booleans, ints, floats, strings, lists, dicts).  JSON numbers
with a fractional point decode to Python floats; these are modelled as
rationals.  The Rhino host document is modelled as an explicit state value
(`RhinoDoc`) holding the layer table and the object table; object GUIDs are
modelled as the position of the object in the object table at creation time.
Fallible Python code (dict lookups, subscripts, dynamic dispatch) returns
`Except PyError`.
-/

/-- A decoded JSON value, as produced by Python's `json.loads`. -/
inductive JVal where
  | jnull
  | jbool (b : Bool)
  | jint (n : ℤ)
  | jnum (q : ℚ)
  | jstr (s : String)
  | jarr (l : List JVal)
  | jobj (kvs : List (String × JVal))

/-- Fuel-bounded decimal digits of the fraction `r / d` (with `r < d`),
by long division: the digits of the short exact decimal expansion, empty
when the remainder is zero. -/
def natFracDigits : ℕ → ℕ → ℕ → List ℕ
  | _, _, 0 => []
  | r, d, fuel + 1 =>
    if r = 0 then []
    else
      let r10 := r * 10
      r10 / d :: natFracDigits (r10 % d) d fuel

/-- Python `str()` of a float value: sign, integer part, a decimal point
and the fractional digits, with a lone `0` after the point when the value
is integral (so `str(0.0) = "0.0"`). -/
def pyFloatStr (q : ℚ) : String :=
  let sign := if q < 0 then "-" else ""
  let n := q.num.natAbs
  let d := q.den
  let ipart := n / d
  let ds := natFracDigits (n % d) d 17
  let fracStr := if ds = [] then "0" else String.join (ds.map (fun dig => toString dig))
  sign ++ toString ipart ++ "." ++ fracStr

/-- Python `repr()` of a decoded JSON value: `None`, `True`/`False`,
numbers, quoted strings, bracketed lists and braced dicts. -/
def pyRepr : JVal → String
  | .jnull => "None"
  | .jbool b => if b then "True" else "False"
  | .jint n => toString n
  | .jnum q => pyFloatStr q
  | .jstr s => "\x27" ++ s ++ "\x27"
  | .jarr l =>
      "[" ++ String.intercalate ", " (l.attach.map (fun x => pyRepr x.1)) ++ "]"
  | .jobj kvs =>
      "\x7b" ++ String.intercalate ", "
        (kvs.attach.map (fun x => "\x27" ++ x.1.1 ++ "\x27: " ++ pyRepr x.1.2)) ++ "\x7d"
termination_by v => sizeOf v
decreasing_by
  · have := List.sizeOf_lt_of_mem x.2
    simp only [JVal.jarr.sizeOf_spec]
    omega
  · have := List.sizeOf_lt_of_mem x.2
    have h2 : sizeOf x.1.2 < sizeOf x.1 := by
      obtain ⟨a, b⟩ := x.1
      simp only [Prod.mk.sizeOf_spec]
      omega
    simp only [JVal.jobj.sizeOf_spec]
    omega

/-- Python `str()` of a decoded JSON value: a string is returned unchanged;
for every other value `str` agrees with `repr` (the scalar cases are spelled
out so that they evaluate definitionally; they coincide with `pyRepr`). -/
def pyStr : JVal → String
  | .jstr s => s
  | .jnull => "None"
  | .jbool b => if b then "True" else "False"
  | .jint n => toString n
  | .jnum q => pyFloatStr q
  | v => pyRepr v

/-- Python exceptions that the embedded code can raise. -/
inductive PyError where
  | keyError (k : String)
  | typeError (msg : String)
  | indexError (msg : String)
deriving DecidableEq

/-- `Rhino.Geometry.Point3d`, with rational coordinates. -/
structure Point3d where
  x : ℚ
  y : ℚ
  z : ℚ

/-- A control-point curve as built by `Curve.CreateControlPointCurve`. -/
structure Curve where
  controlPoints : List Point3d
  degree : ℕ

/-- The native geometry values the converter table can produce (Python is
dynamically typed; this union covers every converter's return type, plus
`pyNone` for a function that returns `None`). -/
inductive RhVal where
  | pt (p : Point3d)
  | pts (ps : List Point3d)
  | crv (c : Curve)
  | crvs (cs : List Curve)
  | polys (css : List (List Curve))
  | pyNone

/-- Python `v[i]` for an integer index: lists index positionally, anything
else raises `TypeError`. -/
def jvalIndex (v : JVal) (i : ℕ) : Except PyError JVal :=
  match v with
  | .jarr l =>
    match l.get? i with
    | some x => .ok x
    | none => .error (.indexError "list index out of range")
  | _ => .error (.typeError "object is not subscriptable")

/-- Coordinate components handed to the `Point3d` constructor must be
numbers (JSON floats or ints). -/
def jvalToNumber : JVal → Except PyError ℚ
  | .jnum q => .ok q
  | .jint n => .ok (n : ℚ)
  | _ => .error (.typeError "coordinate is not a number")

/-- `PointToRhinoPoint`: takes `coordinates[0]` and `coordinates[1]`,
forces `z = 0.0`, and builds a `Point3d`.  Any further elements of the
payload are never read. -/
def PointToRhinoPoint (coordinates : JVal) : Except PyError Point3d := do
  let xv ← jvalIndex coordinates 0
  let yv ← jvalIndex coordinates 1
  let x ← jvalToNumber xv
  let y ← jvalToNumber yv
  return ⟨x, y, 0⟩

/-- The loop body of `MultiPointToRhinoPoint`: convert each coordinate pair
in order, failing at the first bad pair (mirrors the Python `for` loop with
`append`). -/
def pointsLoop : List JVal → Except PyError (List Point3d)
  | [] => .ok []
  | pair :: rest =>
    match PointToRhinoPoint pair with
    | .error e => .error e
    | .ok p =>
      match pointsLoop rest with
      | .error e => .error e
      | .ok ps => .ok (p :: ps)

/-- `MultiPointToRhinoPoint`: iterate over the payload, converting each
pair with `PointToRhinoPoint`. -/
def MultiPointToRhinoPoint (coordinates : JVal) : Except PyError (List Point3d) :=
  match coordinates with
  | .jarr pairs => pointsLoop pairs
  | _ => .error (.typeError "object is not iterable")

/-- `LineStringToRhinoCurve`: convert the points, then
`Curve.CreateControlPointCurve(rhPoints, 1)` (a degree-1 control-point
curve; degenerate inputs are not validated by this module). -/
def LineStringToRhinoCurve (coordinates : JVal) : Except PyError Curve := do
  let rhPoints ← MultiPointToRhinoPoint coordinates
  return ⟨rhPoints, 1⟩

/-- Shared loop body: both `MultiLineStringToRhinoCurve` and
`PolygonToRhinoCurve` loop over their payload calling
`LineStringToRhinoCurve` on each element and appending the results. -/
def curvesLoop : List JVal → Except PyError (List Curve)
  | [] => .ok []
  | lineString :: rest =>
    match LineStringToRhinoCurve lineString with
    | .error e => .error e
    | .ok c =>
      match curvesLoop rest with
      | .error e => .error e
      | .ok cs => .ok (c :: cs)

/-- `MultiLineStringToRhinoCurve`: one curve per line string. -/
def MultiLineStringToRhinoCurve (coordinates : JVal) : Except PyError (List Curve) :=
  match coordinates with
  | .jarr lineStrings => curvesLoop lineStrings
  | _ => .error (.typeError "object is not iterable")

/-- `PolygonToRhinoCurve`: each ring is a separate list of coordinates and
becomes one curve. -/
def PolygonToRhinoCurve (coordinates : JVal) : Except PyError (List Curve) :=
  match coordinates with
  | .jarr rings => curvesLoop rings
  | _ => .error (.typeError "object is not iterable")

/-- The loop body of `MultiPolygonToRhinoCurve`. -/
def polygonsLoop : List JVal → Except PyError (List (List Curve))
  | [] => .ok []
  | polygon :: rest =>
    match PolygonToRhinoCurve polygon with
    | .error e => .error e
    | .ok cs =>
      match polygonsLoop rest with
      | .error e => .error e
      | .ok css => .ok (cs :: css)

/-- `MultiPolygonToRhinoCurve`: a nested list of ring-curves, one inner
list per polygon. -/
def MultiPolygonToRhinoCurve (coordinates : JVal) : Except PyError (List (List Curve)) :=
  match coordinates with
  | .jarr polygons => polygonsLoop polygons
  | _ => .error (.typeError "object is not iterable")

/-- `GeometryCollectionToParser`: its body is `pass`, so calling it
returns Python `None`. -/
def GeometryCollectionToParser (geometries : JVal) : Except PyError RhVal :=
  .ok .pyNone

/-- A Rhino document layer: a registry entry keyed by name, carrying a
display color (colors modelled as naturals; `System.Drawing.Color.Black`
is `blackColor`). -/
structure Layer where
  name : String
  color : ℕ

/-- `System.Drawing.Color.Black`, the default layer color of the module. -/
def blackColor : ℕ := 0

/-- `Rhino.DocObjects.ObjectAttributes`: the layer index (defaults to 0)
and the user-string table written by `SetUserString`. -/
structure ObjectAttributes where
  layerIndex : ℤ
  userStrings : List (String × String)

/-- A fresh `Rhino.DocObjects.ObjectAttributes()` value. -/
def defaultObjectAttributes : ObjectAttributes := ⟨0, []⟩

/-- `att.SetUserString(key, value)`: overwrite the entry when the key is
already present, append it otherwise. -/
def setUserString (att : ObjectAttributes) (key value : String) : ObjectAttributes :=
  if (att.userStrings.map Prod.fst).contains key then
    { att with userStrings :=
        att.userStrings.map (fun p => if p.1 = key then (key, value) else p) }
  else
    { att with userStrings := att.userStrings ++ [(key, value)] }

/-- The geometry stored for one created document object. -/
inductive RhGeom where
  | gPt (p : Point3d)
  | gCrv (c : Curve)

/-- One object of the host document's object table. -/
structure RhinoObject where
  geometry : RhGeom
  attributes : ObjectAttributes

/-- The host Rhino document: its layer table and its object table.  A
created object's GUID is modelled as its position in the object table at
creation time. -/
structure RhinoDoc where
  layers : List Layer
  objects : List RhinoObject

/-- A document with no layers and no objects. -/
def emptyDoc : RhinoDoc := ⟨[], []⟩

/-- `doc.Layers.Find(layerName, True)`: the index of the first layer with
the given name, or `-1` when there is none. -/
def layersFind : List Layer → String → ℤ
  | [], _ => -1
  | l :: rest, layerName =>
    if l.name = layerName then 0
    else
      let r := layersFind rest layerName
      if r = -1 then -1 else r + 1

/-- `addRhinoLayer(layerName, layerColor)`: look the name up; when absent,
add a new layer (returning its index); when present, reset its color if it
differs and return the found index. -/
def addRhinoLayer (doc : RhinoDoc) (layerName : String) (layerColor : ℕ) : RhinoDoc × ℤ :=
  let layerIndex := layersFind doc.layers layerName
  if layerIndex = -1 then
    ({ doc with layers := doc.layers ++ [⟨layerName, layerColor⟩] },
      (doc.layers.length : ℤ))
  else
    match doc.layers.get? layerIndex.toNat with
    | some layer =>
      let layer2 := if layer.color ≠ layerColor then { layer with color := layerColor } else layer
      ({ doc with layers := doc.layers.set layerIndex.toNat layer2 }, layerIndex)
    | none => (doc, layerIndex)

/-- `addPoint`: `doc.Objects.AddPoint(rhPoint, objAtt)`, returning the new
GUID. -/
def addPoint (doc : RhinoDoc) (rhPoint : Point3d) (objAtt : ObjectAttributes) :
    RhinoDoc × ℕ :=
  ({ doc with objects := doc.objects ++ [⟨.gPt rhPoint, objAtt⟩] }, doc.objects.length)

/-- `addPoints`: `doc.Objects.AddPoints(rhPoints, objAtt)`, returning one
GUID per point. -/
def addPoints (doc : RhinoDoc) (rhPoints : List Point3d) (objAtt : ObjectAttributes) :
    RhinoDoc × List ℕ :=
  match rhPoints with
  | [] => (doc, [])
  | p :: ps =>
    let (d1, g) := addPoint doc p objAtt
    let (d2, gs) := addPoints d1 ps objAtt
    (d2, g :: gs)

/-- `addCurve`: `doc.Objects.AddCurve(rhCurve, objAtt)`, returning the new
GUID. -/
def addCurve (doc : RhinoDoc) (rhCurve : Curve) (objAtt : ObjectAttributes) :
    RhinoDoc × ℕ :=
  ({ doc with objects := doc.objects ++ [⟨.gCrv rhCurve, objAtt⟩] }, doc.objects.length)

/-- `addCurves`: add each curve independently, appending the GUIDs. -/
def addCurves (doc : RhinoDoc) (rhCurves : List Curve) (objAtt : ObjectAttributes) :
    RhinoDoc × List ℕ :=
  match rhCurves with
  | [] => (doc, [])
  | c :: cs =>
    let (d1, g) := addCurve doc c objAtt
    let (d2, gs) := addCurves d1 cs objAtt
    (d2, g :: gs)

/-- `addPolygon`: for now this just makes curves (one per ring). -/
def addPolygon (doc : RhinoDoc) (ringList : List Curve) (objAtt : ObjectAttributes) :
    RhinoDoc × List ℕ :=
  addCurves doc ringList objAtt

/-- `addPolygons`: add each polygon's rings, EXTENDING the GUID list (the
per-polygon GUID lists are concatenated, not nested). -/
def addPolygons (doc : RhinoDoc) (polygonList : List (List Curve)) (objAtt : ObjectAttributes) :
    RhinoDoc × List ℕ :=
  match polygonList with
  | [] => (doc, [])
  | polygon :: rest =>
    let (d1, gs1) := addPolygon doc polygon objAtt
    let (d2, gs2) := addPolygons d1 rest objAtt
    (d2, gs1 ++ gs2)

/-- The six geometry kinds whose table entries are genuine
(converter, add-operation) pairs. -/
inductive GeomKind where
  | point
  | multiPoint
  | lineString
  | multiLineString
  | polygon
  | multiPolygon
deriving DecidableEq

/-- A value of the dispatch table `geoJsonGeometryMap`.  Every supported
kind maps to a 2-tuple of functions; the `GeometryCollection` entry is
written `(GeometryCollectionToParser)` in the source — plain parentheses,
not a tuple — so that entry is a bare function. -/
inductive TableEntry where
  | convAddPair (kind : GeomKind)
  | bareFunction (f : JVal → Except PyError RhVal)

/-- What subscripting a table entry yields: the converter half or the
add-operation half of a pair. -/
inductive TableItem where
  | converter (kind : GeomKind)
  | adder (kind : GeomKind)

/-- The module-level dispatch table, keyed by the GeoJSON geometry-type
string. -/
def geoJsonGeometryMap : String → Option TableEntry
  | "Point" => some (.convAddPair .point)
  | "MultiPoint" => some (.convAddPair .multiPoint)
  | "LineString" => some (.convAddPair .lineString)
  | "MultiLineString" => some (.convAddPair .multiLineString)
  | "Polygon" => some (.convAddPair .polygon)
  | "MultiPolygon" => some (.convAddPair .multiPolygon)
  | "GeometryCollection" => some (.bareFunction GeometryCollectionToParser)
  | _ => none

/-- Python subscripting of a table entry: a 2-tuple yields its components
at 0 and 1; subscripting the bare function raises `TypeError`. -/
def tableSub (e : TableEntry) (i : ℕ) : Except PyError TableItem :=
  match e with
  | .convAddPair k =>
    if i = 0 then .ok (.converter k)
    else if i = 1 then .ok (.adder k)
    else .error (.indexError "tuple index out of range")
  | .bareFunction _ => .error (.typeError "function object is not subscriptable")

/-- Apply the converter half of a table entry to a coordinates payload. -/
def applyConverter (item : TableItem) (coordinates : JVal) : Except PyError RhVal :=
  match item with
  | .converter .point => (PointToRhinoPoint coordinates).map RhVal.pt
  | .converter .multiPoint => (MultiPointToRhinoPoint coordinates).map RhVal.pts
  | .converter .lineString => (LineStringToRhinoCurve coordinates).map RhVal.crv
  | .converter .multiLineString => (MultiLineStringToRhinoCurve coordinates).map RhVal.crvs
  | .converter .polygon => (PolygonToRhinoCurve coordinates).map RhVal.crvs
  | .converter .multiPolygon => (MultiPolygonToRhinoCurve coordinates).map RhVal.polys
  | .adder _ => .error (.typeError "add operation is not a converter")

/-- What one feature contributes to `guidResults`: `addPoint`/`addCurve`
return one GUID, the other add-operations return a GUID list. -/
inductive GuidResult where
  | single (g : ℕ)
  | multiple (gs : List ℕ)

/-- Apply the add-operation half of a table entry to a converted geometry
value (a dynamically-typed call in Python; a shape mismatch — impossible
for values produced by the matching converter — raises `TypeError`). -/
def applyAdder (doc : RhinoDoc) (item : TableItem) (rh : RhVal) (att : ObjectAttributes) :
    RhinoDoc × Except PyError GuidResult :=
  match item, rh with
  | .adder .point, .pt p =>
    let (d, g) := addPoint doc p att
    (d, .ok (.single g))
  | .adder .multiPoint, .pts ps =>
    let (d, gs) := addPoints doc ps att
    (d, .ok (.multiple gs))
  | .adder .lineString, .crv c =>
    let (d, g) := addCurve doc c att
    (d, .ok (.single g))
  | .adder .multiLineString, .crvs cs =>
    let (d, gs) := addCurves doc cs att
    (d, .ok (.multiple gs))
  | .adder .polygon, .crvs cs =>
    let (d, gs) := addPolygon doc cs att
    (d, .ok (.multiple gs))
  | .adder .multiPolygon, .polys css =>
    let (d, gs) := addPolygons doc css att
    (d, .ok (.multiple gs))
  | _, _ => (doc, .error (.typeError "geometry value does not match the add operation"))

/-- A feature's `geometry` entry: its `type` tag and its `coordinates`
payload. -/
structure Geometry where
  geomType : String
  coordinates : JVal

/-- One GeoJSON feature: its `properties` mapping (key/value sequence in
dict iteration order) and its `geometry`. -/
structure Feature where
  properties : List (String × JVal)
  geometry : Geometry

/-- A FeatureCollection: the `features` sequence (the only entry the code
reads). -/
structure FeatureCollection where
  features : List Feature

/-- The per-feature attribute setup of `processGeoJson`: a fresh
`ObjectAttributes`, with the destination layer resolved/created and stored
in `LayerIndex` when one was requested. -/
def layerStep (destinationLayer : Option String) (destinationLayerColor : ℕ)
    (doc : RhinoDoc) : RhinoDoc × ObjectAttributes :=
  match destinationLayer with
  | none => (doc, defaultObjectAttributes)
  | some name =>
    let (d, idx) := addRhinoLayer doc name destinationLayerColor
    (d, { defaultObjectAttributes with layerIndex := idx })

/-- Lines 179-188 of the source: look the geometry type up in
`geoJsonGeometryMap`, take component `[0]` and apply it to the
coordinates, then take component `[1]` and apply it to the converted value
and the attributes. -/
def dispatchAndAdd (doc : RhinoDoc) (geom : Geometry) (att : ObjectAttributes) :
    RhinoDoc × Except PyError GuidResult :=
  match geoJsonGeometryMap geom.geomType with
  | none => (doc, .error (.keyError geom.geomType))
  | some entry =>
    match tableSub entry 0 with
    | .error e => (doc, .error e)
    | .ok convItem =>
      match applyConverter convItem geom.coordinates with
      | .error e => (doc, .error e)
      | .ok rhFeature =>
        match tableSub entry 1 with
        | .error e => (doc, .error e)
        | .ok addItem => applyAdder doc addItem rhFeature att

/-- The body of `processGeoJson`'s feature loop: attribute setup (layer,
then properties copied as user strings when the mapping is non-empty),
then geometry dispatch. -/
def processFeature (destinationLayer : Option String) (destinationLayerColor : ℕ)
    (doc : RhinoDoc) (jsonFeature : Feature) : RhinoDoc × Except PyError GuidResult :=
  let (doc1, att1) := layerStep destinationLayer destinationLayerColor doc
  let att2 :=
    if jsonFeature.properties.isEmpty then att1
    else jsonFeature.properties.foldl (fun a kv => setUserString a kv.1 (pyStr kv.2)) att1
  dispatchAndAdd doc1 jsonFeature.geometry att2

/-- The feature loop of `processGeoJson`: process the features in order,
APPENDING each feature's result to the accumulator (so a feature whose
add-operation returns a list contributes a nested sub-list), and stopping
at the first raised exception (document mutations already made persist). -/
def processGeoJsonAux (destinationLayer : Option String) (destinationLayerColor : ℕ)
    (doc : RhinoDoc) : List Feature → RhinoDoc × Except PyError (List GuidResult)
  | [] => (doc, .ok [])
  | f :: fs =>
    let (d1, r) := processFeature destinationLayer destinationLayerColor doc f
    match r with
    | .error e => (d1, .error e)
    | .ok g =>
      let (d2, rs) := processGeoJsonAux destinationLayer destinationLayerColor d1 fs
      match rs with
      | .error e => (d2, .error e)
      | .ok gs => (d2, .ok (g :: gs))

/-- `processGeoJson(parsedGeoJson, destinationLayer, destinationLayerColor)`:
drive every feature of the collection through the converter table and
return the accumulated `guidResults`. -/
def processGeoJson (parsedGeoJson : FeatureCollection) (destinationLayer : Option String)
    (destinationLayerColor : ℕ) (doc : RhinoDoc) :
    RhinoDoc × Except PyError (List GuidResult) :=
  processGeoJsonAux destinationLayer destinationLayerColor doc parsedGeoJson.features

/-- `load(rawGeoJsonData, destinationLayer, destinationLayerColor)`:
decode the text (decoding is delegated to the standard library, modelled
by the `decode` parameter), then call `processGeoJson(geoJson)` — note
that neither `destinationLayer` nor `destinationLayerColor` is forwarded. -/
def load (decode : String → FeatureCollection) (rawGeoJsonData : String)
    (destinationLayer : Option String) (destinationLayerColor : ℕ) (doc : RhinoDoc) :
    RhinoDoc × Except PyError (List GuidResult) :=
  let geoJson := decode rawGeoJsonData
  processGeoJson geoJson none blackColor doc

/-- The argument of `loadLayers`: either raw serialized text or an
already-decoded mapping of layer name to FeatureCollection. -/
inductive RawLayersInput where
  | str (s : String)
  | dict (d : List (String × FeatureCollection))

/-- The layer loop of `loadLayers`: process each layer's collection with
`destinationLayer` equal to the outer key (and the default black color),
appending each layer's result list. -/
def loadLayersAux : List (String × FeatureCollection) → RhinoDoc →
    RhinoDoc × Except PyError (List (List GuidResult))
  | [], doc => (doc, .ok [])
  | (layerKey, fc) :: rest, doc =>
    let (d1, r) := processGeoJson fc (some layerKey) blackColor doc
    match r with
    | .error e => (d1, .error e)
    | .ok layerResults =>
      let (d2, rs) := loadLayersAux rest d1
      match rs with
      | .error e => (d2, .error e)
      | .ok allResults => (d2, .ok (layerResults :: allResults))

/-- `loadLayers(rawJsonData)`: decode the argument first when it is text
(delegated to the standard library, modelled by `decodeLayers`), then run
the layer loop. -/
def loadLayers (decodeLayers : String → List (String × FeatureCollection))
    (rawJsonData : RawLayersInput) (doc : RhinoDoc) :
    RhinoDoc × Except PyError (List (List GuidResult)) :=
  match rawJsonData with
  | .str s =>
    let layersJson := decodeLayers s
    loadLayersAux layersJson doc
  | .dict layersJson => loadLayersAux layersJson doc

/-- The layers of a table that carry a given name. -/
def layersNamed (ls : List Layer) (n : String) : List Layer :=
  ls.filter (fun l => decide (l.name = n))

/-- Whether the layer table contains a layer with the given name. -/
def containsLayer (ls : List Layer) (n : String) : Bool :=
  ls.any (fun l => decide (l.name = n))

/-- The number of rings of one polygon payload. -/
def payloadRingCount : JVal → ℕ
  | .jarr rings => rings.length
  | _ => 0

/-- The total ring count of a MultiPolygon payload (the sum of each
polygon's ring count). -/
def sumRingCounts : JVal → ℕ
  | .jarr polygons => (polygons.map payloadRingCount).sum
  | _ => 0

/-- Whether one `guidResults` entry is a bare identifier (as a flat result
list would require) rather than a nested identifier sub-list. -/
def isFlatGuidResult : GuidResult → Bool
  | .single _ => true
  | .multiple _ => false

/-- The two geometry kinds whose add-operation returns one GUID; the other
four return GUID lists. -/
def kindIsSingle : GeomKind → Bool
  | .point => true
  | .lineString => true
  | _ => false

/-- Whether one `guidResults` entry has the shape the add-operation of the
given kind produces: a bare identifier for the single kinds, a nested
identifier sub-list for the multi kinds. -/
def guidShapeOk (k : GeomKind) (g : GuidResult) : Bool :=
  match g with
  | .single _ => kindIsSingle k
  | .multiple _ => !kindIsSingle k

/-- Whether a feature's `guidResults` entry has the shape its geometry
kind produces: a bare identifier for `Point`/`LineString`, a nested
identifier sub-list for the other supported kinds. -/
def entryShapeOk (geom : Geometry) (g : GuidResult) : Bool :=
  match geoJsonGeometryMap geom.geomType with
  | some (TableEntry.convAddPair k) => guidShapeOk k g
  | _ => false

/-- The objects one add-operation call appends to the document, given the
converted geometry value and the attributes. -/
def addedObjects (item : TableItem) (rh : RhVal) (att : ObjectAttributes) :
    List RhinoObject :=
  match item, rh with
  | .adder .point, .pt p => [⟨.gPt p, att⟩]
  | .adder .multiPoint, .pts ps => ps.map (fun p => ⟨.gPt p, att⟩)
  | .adder .lineString, .crv c => [⟨.gCrv c, att⟩]
  | .adder .multiLineString, .crvs cs => cs.map (fun c => ⟨.gCrv c, att⟩)
  | .adder .polygon, .crvs cs => cs.map (fun c => ⟨.gCrv c, att⟩)
  | .adder .multiPolygon, .polys css => css.flatten.map (fun c => ⟨.gCrv c, att⟩)
  | _, _ => []

/-- The `ObjectAttributes` value one feature is processed with: the
layer-step attributes, with the properties copied in as user strings when
the mapping is non-empty. -/
def featureAtt (dl : Option String) (c : ℕ) (doc : RhinoDoc) (f : Feature) :
    ObjectAttributes :=
  let att1 := (layerStep dl c doc).2
  if f.properties.isEmpty then att1
  else f.properties.foldl (fun a kv => setUserString a kv.1 (pyStr kv.2)) att1

/-- The objects the geometry-dispatch step of one feature appends to the
document (empty when the dispatch raises). -/
def dispatchAdded (geom : Geometry) (att : ObjectAttributes) : List RhinoObject :=
  match geoJsonGeometryMap geom.geomType with
  | none => []
  | some entry =>
    match tableSub entry 0 with
    | .error _ => []
    | .ok convItem =>
      match applyConverter convItem geom.coordinates with
      | .error _ => []
      | .ok rh =>
        match tableSub entry 1 with
        | .error _ => []
        | .ok addItem => addedObjects addItem rh att

theorem addPoints_spec (ps : List Point3d) (att : ObjectAttributes) :
    ∀ doc : RhinoDoc,
      (addPoints doc ps att).1.layers = doc.layers ∧
      (addPoints doc ps att).1.objects = doc.objects ++ ps.map (fun p => ⟨.gPt p, att⟩) ∧
      (addPoints doc ps att).2.length = ps.length := by
  induction ps with
  | nil => intro doc; simp [addPoints]
  | cons p ps ih =>
    intro doc
    have h := ih { doc with objects := doc.objects ++ [⟨.gPt p, att⟩] }
    simp only [addPoints, addPoint] at h ⊢
    simp_all

theorem addCurves_spec (cs : List Curve) (att : ObjectAttributes) :
    ∀ doc : RhinoDoc,
      (addCurves doc cs att).1.layers = doc.layers ∧
      (addCurves doc cs att).1.objects = doc.objects ++ cs.map (fun c => ⟨.gCrv c, att⟩) ∧
      (addCurves doc cs att).2.length = cs.length := by
  induction cs with
  | nil => intro doc; simp [addCurves]
  | cons c cs ih =>
    intro doc
    have h := ih { doc with objects := doc.objects ++ [⟨.gCrv c, att⟩] }
    simp only [addCurves, addCurve] at h ⊢
    simp_all

theorem addPolygons_spec (css : List (List Curve)) (att : ObjectAttributes) :
    ∀ doc : RhinoDoc,
      (addPolygons doc css att).1.layers = doc.layers ∧
      (addPolygons doc css att).1.objects =
        doc.objects ++ css.flatten.map (fun c => ⟨.gCrv c, att⟩) ∧
      (addPolygons doc css att).2.length = (css.map List.length).sum := by
  induction css with
  | nil => intro doc; simp [addPolygons]
  | cons cs css ih =>
    intro doc
    have hc := addCurves_spec cs att doc
    have h := ih (addCurves doc cs att).1
    simp only [addPolygons, addPolygon] at h ⊢
    rcases hc with ⟨hc1, hc2, hc3⟩
    rcases h with ⟨h1, h2, h3⟩
    refine ⟨by simp_all, ?_, by simp_all⟩
    rw [h2, hc2]
    simp [List.append_assoc]

theorem applyAdder_spec (item : TableItem) (rh : RhVal) (att : ObjectAttributes)
    (doc : RhinoDoc) :
    (applyAdder doc item rh att).1.layers = doc.layers ∧
    (applyAdder doc item rh att).1.objects = doc.objects ++ addedObjects item rh att := by
  cases item with
  | converter k => simp [applyAdder, addedObjects]
  | adder k =>
    cases k <;> cases rh <;>
      simp [applyAdder, addedObjects, addPoint, addCurve, addPolygon,
        addPoints_spec, addCurves_spec, addPolygons_spec,
        (addPoints_spec _ att doc).1, (addPoints_spec _ att doc).2.1,
        (addCurves_spec _ att doc).1, (addCurves_spec _ att doc).2.1,
        (addPolygons_spec _ att doc).1, (addPolygons_spec _ att doc).2.1]

theorem addedObjects_att (item : TableItem) (rh : RhVal) (att : ObjectAttributes) :
    ∀ o ∈ addedObjects item rh att, o.attributes = att := by
  cases item with
  | converter k => simp [addedObjects]
  | adder k =>
    cases k <;> cases rh <;> simp [addedObjects] <;>
      (intro o x hx y hy h; subst h; rfl)

theorem dispatchAndAdd_spec (doc : RhinoDoc) (geom : Geometry) (att : ObjectAttributes) :
    (dispatchAndAdd doc geom att).1.layers = doc.layers ∧
    (dispatchAndAdd doc geom att).1.objects = doc.objects ++ dispatchAdded geom att := by
  unfold dispatchAndAdd dispatchAdded
  rcases hm : geoJsonGeometryMap geom.geomType with _ | entry
  · simp
  · rcases h0 : tableSub entry 0 with e | convItem
    · simp [h0]
    · rcases hc : applyConverter convItem geom.coordinates with e | rh
      · simp [h0, hc]
      · rcases h1 : tableSub entry 1 with e | addItem
        · simp [h0, hc, h1]
        · simpa [h0, hc, h1] using applyAdder_spec addItem rh att doc

theorem layerStep_objects (dl : Option String) (c : ℕ) (doc : RhinoDoc) :
    (layerStep dl c doc).1.objects = doc.objects := by
  cases dl with
  | none => rfl
  | some name =>
    show (addRhinoLayer doc name c).1.objects = doc.objects
    by_cases h : layersFind doc.layers name = -1
    · simp [addRhinoLayer, h]
    · rcases hg : doc.layers[(layersFind doc.layers name).toNat]? with _ | layer <;>
        simp [addRhinoLayer, h, hg]

theorem layerStep_userStrings (dl : Option String) (c : ℕ) (doc : RhinoDoc) :
    (layerStep dl c doc).2.userStrings = [] := by
  cases dl with
  | none => rfl
  | some name => rfl

theorem processFeature_eq (dl : Option String) (c : ℕ) (doc : RhinoDoc) (f : Feature) :
    processFeature dl c doc f =
      dispatchAndAdd (layerStep dl c doc).1 f.geometry (featureAtt dl c doc f) := rfl

theorem processFeature_objects (dl : Option String) (c : ℕ) (doc : RhinoDoc) (f : Feature) :
    (processFeature dl c doc f).1.objects =
      doc.objects ++ dispatchAdded f.geometry (featureAtt dl c doc f) := by
  rw [processFeature_eq, (dispatchAndAdd_spec _ _ _).2, layerStep_objects]

theorem processFeature_layers (dl : Option String) (c : ℕ) (doc : RhinoDoc) (f : Feature) :
    (processFeature dl c doc f).1.layers = (layerStep dl c doc).1.layers := by
  rw [processFeature_eq, (dispatchAndAdd_spec _ _ _).1]

theorem dispatchAdded_att (geom : Geometry) (att : ObjectAttributes) :
    ∀ o ∈ dispatchAdded geom att, o.attributes = att := by
  unfold dispatchAdded
  rcases hm : geoJsonGeometryMap geom.geomType with _ | entry
  · simp
  · rcases h0 : tableSub entry 0 with e | convItem
    · simp [h0]
    · rcases hc : applyConverter convItem geom.coordinates with e | rh
      · simp [h0, hc]
      · rcases h1 : tableSub entry 1 with e | addItem
        · simp [h0, hc, h1]
        · simpa [h0, hc, h1] using addedObjects_att addItem rh att

theorem setUserString_layerIndex (a : ObjectAttributes) (k v : String) :
    (setUserString a k v).layerIndex = a.layerIndex := by
  unfold setUserString
  split <;> rfl

theorem foldl_setUserString_layerIndex (ps : List (String × JVal)) :
    ∀ a : ObjectAttributes,
      (ps.foldl (fun a kv => setUserString a kv.1 (pyStr kv.2)) a).layerIndex =
        a.layerIndex := by
  induction ps with
  | nil => intro a; rfl
  | cons kv ps ih =>
    intro a
    simp only [List.foldl_cons, ih, setUserString_layerIndex]

theorem featureAtt_layerIndex (dl : Option String) (c : ℕ) (doc : RhinoDoc) (f : Feature) :
    (featureAtt dl c doc f).layerIndex = (layerStep dl c doc).2.layerIndex := by
  unfold featureAtt
  split
  · rfl
  · exact foldl_setUserString_layerIndex _ _

theorem processGeoJsonAux_cons (dl : Option String) (c : ℕ) (doc : RhinoDoc)
    (f : Feature) (fs : List Feature) :
    processGeoJsonAux dl c doc (f :: fs) =
      match (processFeature dl c doc f).2 with
      | Except.error e => ((processFeature dl c doc f).1, Except.error e)
      | Except.ok g =>
        match (processGeoJsonAux dl c (processFeature dl c doc f).1 fs).2 with
        | Except.error e =>
          ((processGeoJsonAux dl c (processFeature dl c doc f).1 fs).1, Except.error e)
        | Except.ok gs =>
          ((processGeoJsonAux dl c (processFeature dl c doc f).1 fs).1,
            Except.ok (g :: gs)) := rfl

theorem aux_none_spec (c : ℕ) (fs : List Feature) :
    ∀ doc : RhinoDoc,
      (processGeoJsonAux none c doc fs).1.layers = doc.layers ∧
      ∃ tail, (processGeoJsonAux none c doc fs).1.objects = doc.objects ++ tail ∧
        ∀ o ∈ tail, o.attributes.layerIndex = 0 := by
  induction fs with
  | nil => intro doc; exact ⟨rfl, [], by simp [processGeoJsonAux], by simp⟩
  | cons f fs ih =>
    intro doc
    have hatt : ∀ o ∈ dispatchAdded f.geometry (featureAtt none c doc f),
        o.attributes.layerIndex = 0 := by
      intro o ho
      rw [dispatchAdded_att _ _ o ho, featureAtt_layerIndex]
      rfl
    have hobj := processFeature_objects none c doc f
    have hlay : (processFeature none c doc f).1.layers = doc.layers :=
      (processFeature_layers none c doc f).trans rfl
    rw [processGeoJsonAux_cons]
    rcases hr : (processFeature none c doc f).2 with e | g
    · exact ⟨hlay, dispatchAdded f.geometry (featureAtt none c doc f), hobj, hatt⟩
    · obtain ⟨ihl, tail, ihobj, ihatt⟩ := ih (processFeature none c doc f).1
      rcases hrs : (processGeoJsonAux none c (processFeature none c doc f).1 fs).2
        with e2 | gs <;>
      · refine ⟨ihl.trans hlay,
          dispatchAdded f.geometry (featureAtt none c doc f) ++ tail,
          by rw [ihobj, hobj, List.append_assoc], ?_⟩
        intro o ho
        rcases List.mem_append.mp ho with h | h
        · exact hatt o h
        · exact ihatt o h

theorem processGeoJsonAux_singleton (dl : Option String) (c : ℕ) (doc : RhinoDoc)
    (f : Feature) :
    (processGeoJsonAux dl c doc [f]).1 = (processFeature dl c doc f).1 := by
  rw [processGeoJsonAux_cons]
  rcases hr : (processFeature dl c doc f).2 with e | g <;> rfl

/-- C5: for every coordinate payload whose first two elements are the
numbers x and y, `PointToRhinoPoint` produces the point (x, y, 0); any
further elements of the payload (such as a third coordinate) are ignored
and the elevation is always synthesized as zero. -/
theorem PointToRhinoPoint_eq (x y : ℚ) (rest : List JVal) :
    PointToRhinoPoint (JVal.jarr (JVal.jnum x :: JVal.jnum y :: rest)) =
      Except.ok ⟨x, y, 0⟩ := rfl

/-- C2: for every input text and every choice of destinationLayer name and
destinationLayerColor, `load` returns exactly what it returns with
destinationLayer=None (it does not forward those arguments to
`processGeoJson`), it creates no layer, and every object it creates keeps
the default layer index (no layer index is assigned). -/
theorem load_ignores_destination_args (decode : String → FeatureCollection)
    (raw : String) (dl : Option String) (c : ℕ) (doc : RhinoDoc) :
    load decode raw dl c doc = load decode raw none blackColor doc ∧
    (load decode raw dl c doc).1.layers = doc.layers ∧
    ∀ o ∈ (load decode raw dl c doc).1.objects.drop doc.objects.length,
      o.attributes.layerIndex = defaultObjectAttributes.layerIndex := by
  refine ⟨rfl, (aux_none_spec blackColor (decode raw).features doc).1, ?_⟩
  obtain ⟨_, tail, hobj, hatt⟩ := aux_none_spec blackColor (decode raw).features doc
  intro o ho
  have hobj2 : (load decode raw dl c doc).1.objects = doc.objects ++ tail := hobj
  rw [hobj2, List.drop_left] at ho
  exact hatt o ho

/-- C10: a feature whose properties entry is present but empty skips the
attribute-copying step without error: `processGeoJson` on such a feature
behaves exactly as the bare geometry dispatch applied with the layer-only
attributes (its geometry is still converted and added normally, the result
wrapped as the single accumulator entry), and no object created for it
carries any user-string attribute. -/
theorem processGeoJson_empty_properties (geom : Geometry) (dl : Option String)
    (c : ℕ) (doc : RhinoDoc) :
    (processGeoJson ⟨[⟨[], geom⟩]⟩ dl c doc =
      match (dispatchAndAdd (layerStep dl c doc).1 geom (layerStep dl c doc).2).2 with
      | Except.error e =>
        ((dispatchAndAdd (layerStep dl c doc).1 geom (layerStep dl c doc).2).1,
          Except.error e)
      | Except.ok g =>
        ((dispatchAndAdd (layerStep dl c doc).1 geom (layerStep dl c doc).2).1,
          Except.ok [g])) ∧
    ∀ o ∈ (processGeoJson ⟨[⟨[], geom⟩]⟩ dl c doc).1.objects.drop doc.objects.length,
      o.attributes.userStrings = [] := by
  constructor
  · have heq : processFeature dl c doc ⟨[], geom⟩ =
        dispatchAndAdd (layerStep dl c doc).1 geom (layerStep dl c doc).2 := rfl
    show processGeoJsonAux dl c doc [⟨[], geom⟩] = _
    rw [processGeoJsonAux_cons, ← heq]
    rcases hr : (processFeature dl c doc ⟨[], geom⟩).2 with e | g <;> rfl
  · intro o ho
    have hobj : (processGeoJson ⟨[⟨[], geom⟩]⟩ dl c doc).1.objects =
        doc.objects ++ dispatchAdded geom (featureAtt dl c doc ⟨[], geom⟩) := by
      show (processGeoJsonAux dl c doc [⟨[], geom⟩]).1.objects = _
      rw [processGeoJsonAux_singleton, processFeature_objects]
    rw [hobj, List.drop_left] at ho
    rw [dispatchAdded_att _ _ o ho]
    exact layerStep_userStrings dl c doc

/-- C3 counterexample: processing a feature whose geometry type is
GeometryCollection does NOT signal the distinct unsupported-geometry-kind
lookup failure (the `KeyError` a tag absent from the table produces): it
fails with a `TypeError` from subscripting the table entry, which is a
bare function rather than a (converter, add-operation) pair. -/
theorem geometryCollection_counterexample :
    (processGeoJson ⟨[⟨[], ⟨"GeometryCollection", JVal.jarr []⟩⟩]⟩
        none blackColor emptyDoc).2 =
      Except.error (PyError.typeError "function object is not subscriptable") ∧
    PyError.typeError "function object is not subscriptable" ≠
      PyError.keyError "GeometryCollection" :=
  ⟨rfl, by decide⟩

/-- C3 (amended): when a feature whose geometry type is GeometryCollection
is processed, the module does fail rather than silently contributing no
identifiers, but the failure is a `TypeError` raised by subscripting the
table's bare-function entry — not a distinct unsupported-geometry-kind
lookup failure — and no object is created for the feature. -/
theorem geometryCollection_raises_typeError (props : List (String × JVal))
    (coords : JVal) (rest : List Feature) (dl : Option String) (c : ℕ)
    (doc : RhinoDoc) :
    (processGeoJson ⟨⟨props, ⟨"GeometryCollection", coords⟩⟩ :: rest⟩ dl c doc).2 =
      Except.error (PyError.typeError "function object is not subscriptable") ∧
    (processGeoJson ⟨⟨props, ⟨"GeometryCollection", coords⟩⟩ :: rest⟩ dl c doc).1.objects =
      doc.objects := by
  have hpf2 : (processFeature dl c doc ⟨props, ⟨"GeometryCollection", coords⟩⟩).2 =
      Except.error (PyError.typeError "function object is not subscriptable") := by
    rw [processFeature_eq]
    rfl
  have hadded : dispatchAdded (⟨"GeometryCollection", coords⟩ : Geometry)
      (featureAtt dl c doc ⟨props, ⟨"GeometryCollection", coords⟩⟩) = [] := rfl
  constructor
  · show (processGeoJsonAux dl c doc _).2 = _
    rw [processGeoJsonAux_cons, hpf2]
  · show (processGeoJsonAux dl c doc _).1.objects = _
    rw [processGeoJsonAux_cons, hpf2]
    simp only [processFeature_objects, hadded, List.append_nil]

theorem layersFind_cons (l : Layer) (rest : List Layer) (n : String) :
    layersFind (l :: rest) n =
      if l.name = n then 0
      else if layersFind rest n = -1 then -1 else layersFind rest n + 1 := rfl

theorem layersNamed_cons (l : Layer) (rest : List Layer) (n : String) :
    layersNamed (l :: rest) n =
      if l.name = n then l :: layersNamed rest n else layersNamed rest n := by
  simp only [layersNamed, List.filter_cons]
  split_ifs with h1 h2 h2 <;> simp_all

theorem layersFind_ge (ls : List Layer) (n : String) : -1 ≤ layersFind ls n := by
  induction ls with
  | nil => exact le_refl _
  | cons l rest ih =>
    rw [layersFind_cons]
    split_ifs <;> omega

theorem layersFind_neg_one (ls : List Layer) (n : String) (h : layersFind ls n = -1) :
    layersNamed ls n = [] := by
  induction ls with
  | nil => rfl
  | cons l rest ih =>
    rw [layersFind_cons] at h
    rw [layersNamed_cons]
    by_cases hn : l.name = n
    · rw [if_pos hn] at h
      exact absurd h (by decide)
    · rw [if_neg hn] at h
      rw [if_neg hn]
      by_cases h2 : layersFind rest n = -1
      · exact ih h2
      · rw [if_neg h2] at h
        have := layersFind_ge rest n
        omega

theorem layersFind_found (ls : List Layer) (n : String) (h : layersFind ls n ≠ -1) :
    ∃ i : ℕ, layersFind ls n = (i : ℤ) ∧ ∃ l, ls.get? i = some l ∧ l.name = n := by
  induction ls with
  | nil => exact absurd rfl h
  | cons l rest ih =>
    rw [layersFind_cons] at h ⊢
    by_cases hn : l.name = n
    · exact ⟨0, by rw [if_pos hn]; rfl, l, rfl, hn⟩
    · rw [if_neg hn] at h ⊢
      by_cases h2 : layersFind rest n = -1
      · rw [if_pos h2] at h
        exact absurd rfl h
      · rw [if_neg h2] at h ⊢
        obtain ⟨i, hfi, l2, hget, hname⟩ := ih h2
        refine ⟨i + 1, by rw [hfi]; omega, l2, by simpa using hget, hname⟩

theorem layersFind_set (ls : List Layer) (n : String) (c : ℕ)
    (hle : (layersNamed ls n).length ≤ 1) (hne : layersFind ls n ≠ -1) :
    ∃ i : ℕ, layersFind ls n = (i : ℤ) ∧
      (∃ l, ls.get? i = some l ∧ l.name = n) ∧
      layersNamed (ls.set i ⟨n, c⟩) n = [⟨n, c⟩] ∧
      (ls.set i ⟨n, c⟩).get? i = some ⟨n, c⟩ := by
  induction ls with
  | nil => exact absurd rfl hne
  | cons l rest ih =>
    by_cases hn : l.name = n
    · refine ⟨0, by rw [layersFind_cons, if_pos hn]; norm_num, ⟨l, rfl, hn⟩, ?_, rfl⟩
      have hrest : layersNamed rest n = [] := by
        rw [layersNamed_cons, if_pos hn] at hle
        simp only [List.length_cons] at hle
        exact List.length_eq_zero.mp (by omega)
      show layersNamed (⟨n, c⟩ :: rest) n = [⟨n, c⟩]
      rw [layersNamed_cons, if_pos rfl, hrest]
    · rw [layersNamed_cons, if_neg hn] at hle
      rw [layersFind_cons, if_neg hn] at hne ⊢
      by_cases h2 : layersFind rest n = -1
      · rw [if_pos h2] at hne
        exact absurd rfl hne
      · rw [if_neg h2] at hne ⊢
        obtain ⟨i, hfi, hex, hnamed, hget⟩ := ih hle h2
        refine ⟨i + 1, by rw [hfi]; omega, ?_, ?_, ?_⟩
        · obtain ⟨l2, hg, hnm⟩ := hex
          exact ⟨l2, by simpa using hg, hnm⟩
        · show layersNamed (l :: rest.set i ⟨n, c⟩) n = [⟨n, c⟩]
          rw [layersNamed_cons, if_neg hn, hnamed]
        · show (l :: rest.set i ⟨n, c⟩).get? (i + 1) = some ⟨n, c⟩
          simpa using hget

theorem addRhinoLayer_eq (doc : RhinoDoc) (n : String) (c : ℕ) :
    addRhinoLayer doc n c =
      if layersFind doc.layers n = -1 then
        ({ doc with layers := doc.layers ++ [⟨n, c⟩] }, (doc.layers.length : ℤ))
      else
        match doc.layers.get? (layersFind doc.layers n).toNat with
        | some layer =>
          ((⟨doc.layers.set (layersFind doc.layers n).toNat
              (if layer.color ≠ c then ⟨layer.name, c⟩ else layer),
            doc.objects⟩ : RhinoDoc), layersFind doc.layers n)
        | none => (doc, layersFind doc.layers n) := rfl

theorem addRhinoLayer_unique (doc : RhinoDoc) (n : String) (c : ℕ)
    (h : (layersNamed doc.layers n).length ≤ 1) :
    layersNamed (addRhinoLayer doc n c).1.layers n = [⟨n, c⟩] ∧
    0 ≤ (addRhinoLayer doc n c).2 ∧
    (addRhinoLayer doc n c).1.layers.get? (addRhinoLayer doc n c).2.toNat =
      some ⟨n, c⟩ := by
  rw [addRhinoLayer_eq]
  by_cases hf : layersFind doc.layers n = -1
  · rw [if_pos hf]
    refine ⟨?_, by positivity, ?_⟩
    · show layersNamed (doc.layers ++ [⟨n, c⟩]) n = [⟨n, c⟩]
      rw [layersNamed, List.filter_append]
      have h1 : layersNamed doc.layers n = [] := layersFind_neg_one _ _ hf
      rw [layersNamed] at h1
      rw [h1]
      simp [List.filter]
    · show (doc.layers ++ [(⟨n, c⟩ : Layer)]).get? (doc.layers.length : ℤ).toNat =
        some (⟨n, c⟩ : Layer)
      rw [Int.toNat_natCast]
      exact List.get?_concat_length _ _
  · rw [if_neg hf]
    obtain ⟨i, hfi, ⟨l2, hg, hnm⟩, hnamed, hget⟩ :=
      layersFind_set doc.layers n c h hf
    have htn : (layersFind doc.layers n).toNat = i := by rw [hfi]; exact Int.toNat_natCast i
    rw [htn, hg]
    dsimp only
    have hl2 : (if l2.color ≠ c then (⟨l2.name, c⟩ : Layer) else l2) = ⟨n, c⟩ := by
      by_cases hc : l2.color = c
      · simp only [hc, ne_eq, not_true_eq_false, if_false]
        cases l2
        simp_all
      · simp only [ne_eq, hc, not_false_eq_true, if_true, hnm]
    rw [hl2]
    refine ⟨hnamed, by rw [hfi]; positivity, ?_⟩
    rw [htn]
    exact hget

/-- C4: calling `addRhinoLayer` twice with the same name and two different
colors leaves the document with exactly one layer of that name, whose color
is the second call's color, and the (non-negative) index returned by the
second call refers to that same layer: idempotent creation, color update
instead of duplication.  The hypothesis is the host-document invariant that
the name is not already duplicated in the layer table. -/
theorem addRhinoLayer_idempotent (doc : RhinoDoc) (n : String) (c1 c2 : ℕ)
    (hcc : c1 ≠ c2) (h : (layersNamed doc.layers n).length ≤ 1) :
    layersNamed (addRhinoLayer (addRhinoLayer doc n c1).1 n c2).1.layers n = [⟨n, c2⟩] ∧
    0 ≤ (addRhinoLayer (addRhinoLayer doc n c1).1 n c2).2 ∧
    (addRhinoLayer (addRhinoLayer doc n c1).1 n c2).1.layers.get?
      (addRhinoLayer (addRhinoLayer doc n c1).1 n c2).2.toNat = some ⟨n, c2⟩ := by
  have h1 := addRhinoLayer_unique doc n c1 h
  exact addRhinoLayer_unique (addRhinoLayer doc n c1).1 n c2 (by rw [h1.1]; simp)

/-- C4 witness: starting from the empty document, creating layer "roads"
with color 1 and then again with color 2 leaves exactly the single layer
("roads", 2), and the second returned index points at it. -/
theorem addRhinoLayer_idempotent_witness :
    layersNamed (addRhinoLayer (addRhinoLayer emptyDoc "roads" 1).1 "roads" 2).1.layers
      "roads" = [⟨"roads", 2⟩] ∧
    0 ≤ (addRhinoLayer (addRhinoLayer emptyDoc "roads" 1).1 "roads" 2).2 ∧
    (addRhinoLayer (addRhinoLayer emptyDoc "roads" 1).1 "roads" 2).1.layers.get?
      (addRhinoLayer (addRhinoLayer emptyDoc "roads" 1).1 "roads" 2).2.toNat =
      some ⟨"roads", 2⟩ :=
  addRhinoLayer_idempotent emptyDoc "roads" 1 2 (by decide) (by decide)

theorem curvesLoop_length (l : List JVal) :
    ∀ cs, curvesLoop l = Except.ok cs → cs.length = l.length := by
  induction l with
  | nil => intro cs h; cases h; rfl
  | cons x rest ih =>
    intro cs h
    simp only [curvesLoop] at h
    rcases hx : LineStringToRhinoCurve x with e | c <;> rw [hx] at h
    · simp at h
    · rcases hr : curvesLoop rest with e | cs0 <;> rw [hr] at h
      · simp at h
      · simp only [Except.ok.injEq] at h
        subst h
        simp [ih cs0 hr]

theorem PolygonToRhinoCurve_length (p : JVal) (cs : List Curve)
    (h : PolygonToRhinoCurve p = Except.ok cs) : cs.length = payloadRingCount p := by
  rcases p with _ | b | n | q | s | rings | kvs <;>
    simp only [PolygonToRhinoCurve] at h
  case jarr => exact (curvesLoop_length rings cs h).trans (by rfl)
  all_goals simp_all

theorem polygonsLoop_lengths (polys : List JVal) :
    ∀ css, polygonsLoop polys = Except.ok css →
      css.map List.length = polys.map payloadRingCount := by
  induction polys with
  | nil => intro css h; cases h; rfl
  | cons p rest ih =>
    intro css h
    simp only [polygonsLoop] at h
    rcases hp : PolygonToRhinoCurve p with e | cs <;> rw [hp] at h
    · simp at h
    · rcases hr : polygonsLoop rest with e | css0 <;> rw [hr] at h
      · simp at h
      · simp only [Except.ok.injEq] at h
        subst h
        simp only [List.map_cons]
        rw [PolygonToRhinoCurve_length p cs hp, ih css0 hr]

/-- C6: for every MultiPolygon coordinates payload of m polygons where
polygon i has k_i rings, converting it with `MultiPolygonToRhinoCurve`
and adding the result with `addPolygons` yields an identifier list whose
length is the sum of the k_i: one curve object per ring, flattened across
the polygons. -/
theorem multiPolygon_guid_count (coords : JVal) (css : List (List Curve))
    (att : ObjectAttributes) (doc : RhinoDoc)
    (h : MultiPolygonToRhinoCurve coords = Except.ok css) :
    ((addPolygons doc css att).2).length = sumRingCounts coords := by
  rcases coords with _ | b | n | q | s | polys | kvs <;>
    simp only [MultiPolygonToRhinoCurve] at h
  case jarr =>
    have hl := polygonsLoop_lengths polys css h
    rw [(addPolygons_spec css att doc).2.2]
    show (css.map List.length).sum = (polys.map payloadRingCount).sum
    rw [hl]
  all_goals simp_all

/-- C6 witness: a MultiPolygon with two polygons, of one ring and two
rings respectively, yields 1 + 2 = 3 curve identifiers. -/
theorem multiPolygon_guid_count_witness :
    ((addPolygons emptyDoc
        [[⟨[⟨0, 0, 0⟩, ⟨1, 1, 0⟩], 1⟩],
         [⟨[⟨0, 0, 0⟩, ⟨1, 1, 0⟩], 1⟩, ⟨[⟨0, 0, 0⟩, ⟨1, 1, 0⟩], 1⟩]]
        defaultObjectAttributes).2).length =
      sumRingCounts (JVal.jarr
        [JVal.jarr [JVal.jarr [JVal.jarr [JVal.jnum 0, JVal.jnum 0],
            JVal.jarr [JVal.jnum 1, JVal.jnum 1]]],
         JVal.jarr [JVal.jarr [JVal.jarr [JVal.jnum 0, JVal.jnum 0],
            JVal.jarr [JVal.jnum 1, JVal.jnum 1]],
          JVal.jarr [JVal.jarr [JVal.jnum 0, JVal.jnum 0],
            JVal.jarr [JVal.jnum 1, JVal.jnum 1]]]]) :=
  multiPolygon_guid_count _ _ defaultObjectAttributes emptyDoc rfl

theorem processGeoJsonAux_cons_err (dl : Option String) (c : ℕ) (doc : RhinoDoc)
    (f : Feature) (fs : List Feature) (e : PyError)
    (hf : (processFeature dl c doc f).2 = Except.error e) :
    processGeoJsonAux dl c doc (f :: fs) =
      ((processFeature dl c doc f).1, Except.error e) := by
  rw [processGeoJsonAux_cons, hf]

theorem processGeoJsonAux_cons_ok (dl : Option String) (c : ℕ) (doc : RhinoDoc)
    (f : Feature) (fs : List Feature) (g : GuidResult)
    (hf : (processFeature dl c doc f).2 = Except.ok g) :
    (processGeoJsonAux dl c doc (f :: fs)).1 =
      (processGeoJsonAux dl c (processFeature dl c doc f).1 fs).1 ∧
    (processGeoJsonAux dl c doc (f :: fs)).2 =
      match (processGeoJsonAux dl c (processFeature dl c doc f).1 fs).2 with
      | Except.error e => Except.error e
      | Except.ok gs => Except.ok (g :: gs) := by
  rw [processGeoJsonAux_cons, hf]
  rcases hr : (processGeoJsonAux dl c (processFeature dl c doc f).1 fs).2 with e | gs <;>
    exact ⟨rfl, rfl⟩

theorem processGeoJsonAux_append (dl : Option String) (c : ℕ) (l1 l2 : List Feature) :
    ∀ doc doc1 gs, processGeoJsonAux dl c doc l1 = (doc1, Except.ok gs) →
      (processGeoJsonAux dl c doc (l1 ++ l2)).1 = (processGeoJsonAux dl c doc1 l2).1 ∧
      (processGeoJsonAux dl c doc (l1 ++ l2)).2 =
        match (processGeoJsonAux dl c doc1 l2).2 with
        | Except.error e => Except.error e
        | Except.ok gs2 => Except.ok (gs ++ gs2) := by
  induction l1 with
  | nil =>
    intro doc doc1 gs h
    have h2 : (doc, Except.ok ([] : List GuidResult)) = (doc1, Except.ok gs) := h
    simp only [Prod.mk.injEq, Except.ok.injEq] at h2
    obtain ⟨h3, h4⟩ := h2
    subst h3
    subst h4
    refine ⟨rfl, ?_⟩
    show (processGeoJsonAux dl c doc l2).2 = _
    rcases hr : (processGeoJsonAux dl c doc l2).2 with e | gs2
    · rfl
    · simp
  | cons f rest ih =>
    intro doc doc1 gs h
    rw [processGeoJsonAux_cons] at h
    rcases hf : (processFeature dl c doc f).2 with e | g <;> rw [hf] at h
    · simp at h
    · rcases hrest : (processGeoJsonAux dl c (processFeature dl c doc f).1 rest).2
        with e2 | gs2 <;> rw [hrest] at h
      · simp at h
      · simp only [Prod.mk.injEq, Except.ok.injEq] at h
        obtain ⟨h3, h4⟩ := h
        have haux : processGeoJsonAux dl c (processFeature dl c doc f).1 rest =
            (doc1, Except.ok gs2) := Prod.ext h3 hrest
        obtain ⟨hih1, hih2⟩ := ih (processFeature dl c doc f).1 doc1 gs2 haux
        obtain ⟨hc1, hc2⟩ := processGeoJsonAux_cons_ok dl c doc f (rest ++ l2) g hf
        simp only [List.cons_append]
        refine ⟨by rw [hc1, hih1], ?_⟩
        rw [hc2, hih2]
        rcases hl2 : (processGeoJsonAux dl c doc1 l2).2 with e3 | gs3
        · rfl
        · subst h4
          simp

theorem processFeature_unknown_tag (dl : Option String) (c : ℕ) (doc : RhinoDoc)
    (f : Feature) (htag : geoJsonGeometryMap f.geometry.geomType = none) :
    processFeature dl c doc f =
      ((layerStep dl c doc).1,
        Except.error (PyError.keyError f.geometry.geomType)) := by
  rw [processFeature_eq]
  unfold dispatchAndAdd
  rw [htag]

/-- C7: for every feature whose geometry type string is not a key of the
converter table, `processGeoJson` (having successfully processed the
features before it) fails with the lookup failure at the point of dispatch
— a `KeyError` carrying the unknown tag, the unsupported-geometry-kind
signal — and creates no object for that feature. -/
theorem unknown_tag_dispatch_failure (tag : String) (props : List (String × JVal))
    (coords : JVal) (fs1 fs2 : List Feature) (dl : Option String) (c : ℕ)
    (doc doc1 : RhinoDoc) (gs : List GuidResult)
    (htag : geoJsonGeometryMap tag = none)
    (hpre : processGeoJsonAux dl c doc fs1 = (doc1, Except.ok gs)) :
    (processGeoJson ⟨fs1 ++ ⟨props, ⟨tag, coords⟩⟩ :: fs2⟩ dl c doc).2 =
      Except.error (PyError.keyError tag) ∧
    (processGeoJson ⟨fs1 ++ ⟨props, ⟨tag, coords⟩⟩ :: fs2⟩ dl c doc).1.objects =
      doc1.objects := by
  obtain ⟨happ1, happ2⟩ := processGeoJsonAux_append dl c fs1
    (⟨props, ⟨tag, coords⟩⟩ :: fs2) doc doc1 gs hpre
  have hf := processFeature_unknown_tag dl c doc1 ⟨props, ⟨tag, coords⟩⟩ htag
  have hcons : processGeoJsonAux dl c doc1 (⟨props, ⟨tag, coords⟩⟩ :: fs2) =
      ((layerStep dl c doc1).1, Except.error (PyError.keyError tag)) := by
    rw [processGeoJsonAux_cons, hf]
  constructor
  · show (processGeoJsonAux dl c doc (fs1 ++ _)).2 = _
    rw [happ2, hcons]
  · show (processGeoJsonAux dl c doc (fs1 ++ _)).1.objects = _
    rw [happ1, hcons]
    exact layerStep_objects dl c doc1

/-- C7 witness: a single feature tagged "Triangle" (not a key of the
table) makes processGeoJson fail with KeyError "Triangle" and add no
object. -/
theorem unknown_tag_dispatch_failure_witness :
    (processGeoJson ⟨[] ++ ⟨[], ⟨"Triangle", JVal.jarr []⟩⟩ :: []⟩
        none blackColor emptyDoc).2 = Except.error (PyError.keyError "Triangle") ∧
    (processGeoJson ⟨[] ++ ⟨[], ⟨"Triangle", JVal.jarr []⟩⟩ :: []⟩
        none blackColor emptyDoc).1.objects = emptyDoc.objects :=
  unknown_tag_dispatch_failure "Triangle" [] (JVal.jarr []) [] [] none blackColor
    emptyDoc emptyDoc [] rfl rfl

theorem applyAdder_ok_shape (doc : RhinoDoc) (k : GeomKind) (rh : RhVal)
    (att : ObjectAttributes) (g : GuidResult)
    (h : (applyAdder doc (TableItem.adder k) rh att).2 = Except.ok g) :
    guidShapeOk k g = true := by
  cases k <;> cases rh <;>
    simp only [applyAdder, addPoint, addCurve, addPolygon] at h <;>
    simp at h <;> (subst h; rfl)

theorem dispatch_ok_shape (doc : RhinoDoc) (geom : Geometry) (att : ObjectAttributes)
    (g : GuidResult) (h : (dispatchAndAdd doc geom att).2 = Except.ok g) :
    entryShapeOk geom g = true := by
  unfold dispatchAndAdd at h
  rcases hm : geoJsonGeometryMap geom.geomType with _ | entry <;> rw [hm] at h <;>
    dsimp only at h
  · simp at h
  · unfold entryShapeOk
    rw [hm]
    rcases entry with k | fn
    case bareFunction => simp [tableSub] at h
    case convAddPair =>
      rw [show tableSub (TableEntry.convAddPair k) 0 =
        Except.ok (TableItem.converter k) from rfl] at h
      dsimp only at h
      rcases hcv : applyConverter (TableItem.converter k) geom.coordinates
        with e | rh <;> rw [hcv] at h <;> dsimp only at h
      · simp at h
      · rw [show tableSub (TableEntry.convAddPair k) 1 =
          Except.ok (TableItem.adder k) from rfl] at h
        dsimp only at h
        exact applyAdder_ok_shape doc k rh att g h

theorem aux_ok_shape (dl : Option String) (c : ℕ) (fs : List Feature) :
    ∀ doc doc1 res, processGeoJsonAux dl c doc fs = (doc1, Except.ok res) →
      res.length = fs.length ∧
      (List.zipWith entryShapeOk (fs.map Feature.geometry) res).all
        (fun b => b) = true := by
  induction fs with
  | nil =>
    intro doc doc1 res h
    have h2 : (doc, Except.ok ([] : List GuidResult)) = (doc1, Except.ok res) := h
    simp only [Prod.mk.injEq, Except.ok.injEq] at h2
    obtain ⟨h3, h4⟩ := h2
    subst h4
    exact ⟨rfl, rfl⟩
  | cons f rest ih =>
    intro doc doc1 res h
    rw [processGeoJsonAux_cons] at h
    rcases hf : (processFeature dl c doc f).2 with e | g <;> rw [hf] at h
    · simp at h
    · rcases hrest : (processGeoJsonAux dl c (processFeature dl c doc f).1 rest).2
        with e2 | gs <;> rw [hrest] at h
      · simp at h
      · simp only [Prod.mk.injEq, Except.ok.injEq] at h
        obtain ⟨hd, hres⟩ := h
        subst hres
        have haux : processGeoJsonAux dl c (processFeature dl c doc f).1 rest =
            ((processGeoJsonAux dl c (processFeature dl c doc f).1 rest).1,
              Except.ok gs) := Prod.ext rfl hrest
        obtain ⟨ihlen, ihshape⟩ := ih (processFeature dl c doc f).1 _ gs haux
        have hshape : entryShapeOk f.geometry g = true := by
          rw [processFeature_eq] at hf
          exact dispatch_ok_shape _ f.geometry _ g hf
        refine ⟨by simp [ihlen], ?_⟩
        simp only [List.map_cons, List.zipWith_cons_cons, List.all_cons, hshape,
          Bool.true_and]
        exact ihshape

/-- C1 (amended): whenever `processGeoJson` succeeds, it returns exactly
one accumulator entry per feature, in feature-encounter order; the entry
of every multi-geometry feature (MultiPoint, MultiLineString, Polygon,
MultiPolygon) is a nested identifier sub-list — appended as one element,
not flattened into the outer list — while Point and LineString features
contribute bare identifiers. -/
theorem processGeoJson_entry_per_feature (fc : FeatureCollection)
    (dl : Option String) (c : ℕ) (doc doc1 : RhinoDoc) (res : List GuidResult)
    (h : processGeoJson fc dl c doc = (doc1, Except.ok res)) :
    res.length = fc.features.length ∧
    (List.zipWith entryShapeOk (fc.features.map Feature.geometry) res).all
      (fun b => b) = true :=
  aux_ok_shape dl c fc.features doc doc1 res h

/-- C1 witness: a collection of a Point feature followed by a
MultiLineString feature of two line strings succeeds with one entry per
feature, the second entry being the nested sub-list of two identifiers. -/
theorem processGeoJson_entry_per_feature_witness :
    ([GuidResult.single 0, GuidResult.multiple [1, 2]] : List GuidResult).length =
      ([⟨[], ⟨"Point", JVal.jarr [JVal.jnum 102, JVal.jnum 1]⟩⟩,
        ⟨[], ⟨"MultiLineString", JVal.jarr
          [JVal.jarr [JVal.jarr [JVal.jnum 0, JVal.jnum 0],
            JVal.jarr [JVal.jnum 1, JVal.jnum 1]],
           JVal.jarr [JVal.jarr [JVal.jnum 2, JVal.jnum 2],
            JVal.jarr [JVal.jnum 3, JVal.jnum 3]]]⟩⟩] : List Feature).length ∧
    (List.zipWith entryShapeOk
      (([⟨[], ⟨"Point", JVal.jarr [JVal.jnum 102, JVal.jnum 1]⟩⟩,
        ⟨[], ⟨"MultiLineString", JVal.jarr
          [JVal.jarr [JVal.jarr [JVal.jnum 0, JVal.jnum 0],
            JVal.jarr [JVal.jnum 1, JVal.jnum 1]],
           JVal.jarr [JVal.jarr [JVal.jnum 2, JVal.jnum 2],
            JVal.jarr [JVal.jnum 3, JVal.jnum 3]]]⟩⟩] : List Feature).map
          Feature.geometry)
      [GuidResult.single 0, GuidResult.multiple [1, 2]]).all (fun b => b) = true :=
  processGeoJson_entry_per_feature
    ⟨[⟨[], ⟨"Point", JVal.jarr [JVal.jnum 102, JVal.jnum 1]⟩⟩,
      ⟨[], ⟨"MultiLineString", JVal.jarr
        [JVal.jarr [JVal.jarr [JVal.jnum 0, JVal.jnum 0],
          JVal.jarr [JVal.jnum 1, JVal.jnum 1]],
         JVal.jarr [JVal.jarr [JVal.jnum 2, JVal.jnum 2],
          JVal.jarr [JVal.jnum 3, JVal.jnum 3]]]⟩⟩]⟩
    none blackColor emptyDoc
    ⟨[], [⟨.gPt ⟨102, 1, 0⟩, ⟨0, []⟩⟩,
      ⟨.gCrv ⟨[⟨0, 0, 0⟩, ⟨1, 1, 0⟩], 1⟩, ⟨0, []⟩⟩,
      ⟨.gCrv ⟨[⟨2, 2, 0⟩, ⟨3, 3, 0⟩], 1⟩, ⟨0, []⟩⟩]⟩
    [GuidResult.single 0, GuidResult.multiple [1, 2]] rfl

/-- C1 counterexample: a FeatureCollection of one MultiLineString feature
with two line strings.  `processGeoJson` APPENDS the add-operation's GUID
list as a single accumulator entry, so the result is the nested list
[[0, 1]] — its only entry is an identifier sub-list, not a bare
identifier, contradicting the claimed flat (non-nested) result. -/
theorem processGeoJson_nested_counterexample :
    (processGeoJson ⟨[⟨[], ⟨"MultiLineString", JVal.jarr
        [JVal.jarr [JVal.jarr [JVal.jnum 0, JVal.jnum 0],
          JVal.jarr [JVal.jnum 1, JVal.jnum 1]],
         JVal.jarr [JVal.jarr [JVal.jnum 2, JVal.jnum 2],
          JVal.jarr [JVal.jnum 3, JVal.jnum 3]]]⟩⟩]⟩
      none blackColor emptyDoc).2 =
      Except.ok [GuidResult.multiple [0, 1]] ∧
    isFlatGuidResult (GuidResult.multiple [0, 1]) = false := ⟨rfl, rfl⟩

theorem setUserString_fresh (a : ObjectAttributes) (k v : String)
    (hk : k ∉ a.userStrings.map Prod.fst) :
    (setUserString a k v).userStrings = a.userStrings ++ [(k, v)] := by
  unfold setUserString
  rw [if_neg (by simpa using hk)]

theorem foldl_setUserString_userStrings (ps : List (String × JVal)) :
    ∀ a : ObjectAttributes,
      (ps.map Prod.fst).Nodup →
      (∀ k ∈ ps.map Prod.fst, k ∉ a.userStrings.map Prod.fst) →
      (ps.foldl (fun a kv => setUserString a kv.1 (pyStr kv.2)) a).userStrings =
        a.userStrings ++ ps.map (fun kv => (kv.1, pyStr kv.2)) := by
  induction ps with
  | nil => intro a _ _; simp
  | cons kv ps ih =>
    intro a hnd hdisj
    simp only [List.foldl_cons]
    have hknot : kv.1 ∉ a.userStrings.map Prod.fst := hdisj kv.1 (by simp)
    have hset := setUserString_fresh a kv.1 (pyStr kv.2) hknot
    have hndtail : (ps.map Prod.fst).Nodup := by
      simp only [List.map_cons, List.nodup_cons] at hnd
      exact hnd.2
    have hhead : kv.1 ∉ ps.map Prod.fst := by
      simp only [List.map_cons, List.nodup_cons] at hnd
      exact hnd.1
    have hdisj2 : ∀ k ∈ ps.map Prod.fst,
        k ∉ (setUserString a kv.1 (pyStr kv.2)).userStrings.map Prod.fst := by
      intro k hk
      rw [hset]
      simp only [List.map_append, List.mem_append, List.map_cons, List.map_nil]
      rintro (hin | hin)
      · exact hdisj k (by simp [hk]) hin
      · simp only [List.mem_singleton] at hin
        exact hhead (hin ▸ hk)
    rw [ih (setUserString a kv.1 (pyStr kv.2)) hndtail hdisj2, hset]
    simp

theorem featureAtt_nonempty (dl : Option String) (c : ℕ) (doc : RhinoDoc)
    (props : List (String × JVal)) (geom : Geometry) (hne : props ≠ []) :
    featureAtt dl c doc ⟨props, geom⟩ =
      props.foldl (fun a kv => setUserString a kv.1 (pyStr kv.2))
        (layerStep dl c doc).2 := by
  unfold featureAtt
  rw [if_neg (by simpa using hne)]

/-- C8: for every feature with a non-empty properties mapping (distinct
keys, as a decoded JSON object guarantees), a successful `processGeoJson`
feature step attaches exactly one user-string attribute per properties
entry to every object it creates, in order, with each value coerced to its
Python text form. -/
theorem properties_copied_as_strings (props : List (String × JVal)) (geom : Geometry)
    (dl : Option String) (c : ℕ) (doc d1 : RhinoDoc) (g : GuidResult)
    (hne : props ≠ [])
    (hnd : (props.map Prod.fst).Nodup)
    (hrun : processFeature dl c doc ⟨props, geom⟩ = (d1, Except.ok g)) :
    ((d1.objects.drop doc.objects.length).all
      (fun o => decide (o.attributes.userStrings =
        props.map (fun kv => (kv.1, pyStr kv.2))))) = true := by
  have hd1 : (processFeature dl c doc ⟨props, geom⟩).1 = d1 := by rw [hrun]
  have hobj : d1.objects = doc.objects ++
      dispatchAdded geom (featureAtt dl c doc ⟨props, geom⟩) := by
    rw [← hd1, processFeature_objects]
  have hatt2 : (featureAtt dl c doc ⟨props, geom⟩).userStrings =
      props.map (fun kv => (kv.1, pyStr kv.2)) := by
    rw [featureAtt_nonempty dl c doc props geom hne,
      foldl_setUserString_userStrings props _ hnd
        (by intro k hk; rw [layerStep_userStrings]; simp),
      layerStep_userStrings]
    simp
  rw [hobj, List.drop_left, List.all_eq_true]
  intro o ho
  rw [decide_eq_true_eq, dispatchAdded_att _ _ o ho, hatt2]

/-- C8 witness: a Point feature carrying properties prop1 = 0.0 yields an
object whose attribute for key prop1 is the text "0.0" (numeric-to-text
coercion). -/
theorem properties_copied_as_strings_witness :
    ((((⟨[], [⟨.gPt ⟨102, 1, 0⟩, ⟨0, [("prop1", "0.0")]⟩⟩]⟩ : RhinoDoc).objects.drop
        emptyDoc.objects.length).all
      (fun o => decide (o.attributes.userStrings =
        ([("prop1", JVal.jnum 0)].map (fun kv => (kv.1, pyStr kv.2))))))) = true :=
  properties_copied_as_strings [("prop1", JVal.jnum 0)]
    ⟨"Point", JVal.jarr [JVal.jnum 102, JVal.jnum 1]⟩ none blackColor emptyDoc
    ⟨[], [⟨.gPt ⟨102, 1, 0⟩, ⟨0, [("prop1", "0.0")]⟩⟩]⟩ (.single 0)
    (by simp) (by simp) rfl

theorem containsLayer_append (l1 l2 : List Layer) (nm : String) :
    containsLayer (l1 ++ l2) nm = (containsLayer l1 nm || containsLayer l2 nm) := by
  simp [containsLayer, List.any_append]

theorem containsLayer_set (ls : List Layer) :
    ∀ (i : ℕ) (x : Layer), (∀ l, ls.get? i = some l → x.name = l.name) →
      ∀ nm, containsLayer ls nm = true → containsLayer (ls.set i x) nm = true := by
  induction ls with
  | nil => intro i x _ nm h; simpa using h
  | cons l rest ih =>
    intro i x hx nm h
    cases i with
    | zero =>
      have hxl : x.name = l.name := hx l rfl
      show ((x :: rest).any fun l2 => decide (l2.name = nm)) = true
      simp only [containsLayer, List.any_cons, Bool.or_eq_true] at h ⊢
      rcases h with h | h
      · left
        simp only [decide_eq_true_eq] at h ⊢
        rw [hxl, h]
      · right
        exact h
    | succ j =>
      show ((l :: rest.set j x).any fun l2 => decide (l2.name = nm)) = true
      simp only [containsLayer, List.any_cons, Bool.or_eq_true] at h ⊢
      rcases h with h | h
      · left
        exact h
      · right
        exact ih j x (fun l2 hg => hx l2 (by simpa using hg)) nm h

theorem addRhinoLayer_contains_self (doc : RhinoDoc) (n : String) (c : ℕ) :
    containsLayer (addRhinoLayer doc n c).1.layers n = true := by
  rw [addRhinoLayer_eq]
  by_cases hf : layersFind doc.layers n = -1
  · rw [if_pos hf]
    show containsLayer (doc.layers ++ [⟨n, c⟩]) n = true
    rw [containsLayer_append]
    simp [containsLayer]
  · rw [if_neg hf]
    obtain ⟨i, hfi, l, hget, hname⟩ := layersFind_found doc.layers n hf
    have htn : (layersFind doc.layers n).toNat = i := by
      rw [hfi]; exact Int.toNat_natCast i
    rw [htn, hget]
    show containsLayer (doc.layers.set i _) n = true
    have hmem : containsLayer doc.layers n = true := by
      simp only [containsLayer, List.any_eq_true, decide_eq_true_eq]
      exact ⟨l, List.get?_mem hget, hname⟩
    refine containsLayer_set doc.layers i _ ?_ n hmem
    intro l2 hg2
    rw [hget] at hg2
    obtain rfl : l = l2 := by injection hg2
    split_ifs <;> rfl

theorem addRhinoLayer_preserves_contains (doc : RhinoDoc) (n : String) (c : ℕ)
    (nm : String) (h : containsLayer doc.layers nm = true) :
    containsLayer (addRhinoLayer doc n c).1.layers nm = true := by
  rw [addRhinoLayer_eq]
  by_cases hf : layersFind doc.layers n = -1
  · rw [if_pos hf]
    show containsLayer (doc.layers ++ [⟨n, c⟩]) nm = true
    rw [containsLayer_append, h]
    rfl
  · rw [if_neg hf]
    obtain ⟨i, hfi, l, hget, hname⟩ := layersFind_found doc.layers n hf
    have htn : (layersFind doc.layers n).toNat = i := by
      rw [hfi]; exact Int.toNat_natCast i
    rw [htn, hget]
    refine containsLayer_set doc.layers i _ ?_ nm h
    intro l2 hg2
    rw [hget] at hg2
    obtain rfl : l = l2 := by injection hg2
    split_ifs <;> rfl

theorem processFeature_preserves_contains (dl : Option String) (c : ℕ)
    (doc : RhinoDoc) (f : Feature) (nm : String)
    (h : containsLayer doc.layers nm = true) :
    containsLayer (processFeature dl c doc f).1.layers nm = true := by
  rw [processFeature_layers]
  cases dl with
  | none => exact h
  | some n => exact addRhinoLayer_preserves_contains doc n c nm h

theorem processFeature_some_contains (k : String) (c : ℕ) (doc : RhinoDoc)
    (f : Feature) :
    containsLayer (processFeature (some k) c doc f).1.layers k = true := by
  rw [processFeature_layers]
  exact addRhinoLayer_contains_self doc k c

theorem aux_preserves_contains (dl : Option String) (c : ℕ) (fs : List Feature)
    (nm : String) :
    ∀ doc, containsLayer doc.layers nm = true →
      containsLayer (processGeoJsonAux dl c doc fs).1.layers nm = true := by
  induction fs with
  | nil => intro doc h; exact h
  | cons f rest ih =>
    intro doc h
    rw [processGeoJsonAux_cons]
    rcases hf : (processFeature dl c doc f).2 with e | g
    · exact processFeature_preserves_contains dl c doc f nm h
    · rcases hrs : (processGeoJsonAux dl c (processFeature dl c doc f).1 rest).2
        with e2 | gs <;>
        exact ih (processFeature dl c doc f).1
          (processFeature_preserves_contains dl c doc f nm h)

theorem aux_some_contains (k : String) (c : ℕ) (f : Feature) (fs : List Feature)
    (doc : RhinoDoc) :
    containsLayer (processGeoJsonAux (some k) c doc (f :: fs)).1.layers k = true := by
  rw [processGeoJsonAux_cons]
  rcases hf : (processFeature (some k) c doc f).2 with e | g
  · exact processFeature_some_contains k c doc f
  · rcases hrs : (processGeoJsonAux (some k) c (processFeature (some k) c doc f).1 fs).2
      with e2 | gs <;>
      exact aux_preserves_contains (some k) c fs k (processFeature (some k) c doc f).1
        (processFeature_some_contains k c doc f)

theorem loadLayersAux_cons (k : String) (fc : FeatureCollection)
    (rest : List (String × FeatureCollection)) (doc : RhinoDoc) :
    loadLayersAux ((k, fc) :: rest) doc =
      match (processGeoJson fc (some k) blackColor doc).2 with
      | Except.error e => ((processGeoJson fc (some k) blackColor doc).1, Except.error e)
      | Except.ok lr =>
        match (loadLayersAux rest (processGeoJson fc (some k) blackColor doc).1).2 with
        | Except.error e =>
          ((loadLayersAux rest (processGeoJson fc (some k) blackColor doc).1).1,
            Except.error e)
        | Except.ok allResults =>
          ((loadLayersAux rest (processGeoJson fc (some k) blackColor doc).1).1,
            Except.ok (lr :: allResults)) := rfl

theorem loadLayersAux_preserves_contains (d : List (String × FeatureCollection))
    (nm : String) :
    ∀ doc, containsLayer doc.layers nm = true →
      containsLayer (loadLayersAux d doc).1.layers nm = true := by
  induction d with
  | nil => intro doc h; exact h
  | cons kfc rest ih =>
    intro doc h
    obtain ⟨k, fc⟩ := kfc
    rw [loadLayersAux_cons]
    have hp : containsLayer (processGeoJson fc (some k) blackColor doc).1.layers nm
        = true := aux_preserves_contains (some k) blackColor fc.features nm doc h
    rcases hf : (processGeoJson fc (some k) blackColor doc).2 with e | lr
    · exact hp
    · rcases hrs : (loadLayersAux rest (processGeoJson fc (some k) blackColor doc).1).2
        with e2 | allResults <;>
        exact ih (processGeoJson fc (some k) blackColor doc).1 hp

theorem loadLayersAux_spec (d : List (String × FeatureCollection)) :
    ∀ doc d1 res, loadLayersAux d doc = (d1, Except.ok res) →
      res.length = d.length ∧
      (d.all (fun kfc => kfc.2.features.isEmpty ||
        containsLayer d1.layers kfc.1)) = true := by
  induction d with
  | nil =>
    intro doc d1 res h
    have h2 : (doc, Except.ok ([] : List (List GuidResult))) = (d1, Except.ok res) := h
    simp only [Prod.mk.injEq, Except.ok.injEq] at h2
    obtain ⟨h3, h4⟩ := h2
    subst h4
    exact ⟨rfl, rfl⟩
  | cons kfc rest ih =>
    intro doc d1 res h
    obtain ⟨k, fc⟩ := kfc
    rw [loadLayersAux_cons] at h
    rcases hp : (processGeoJson fc (some k) blackColor doc).2 with e | lr <;>
      rw [hp] at h
    · simp at h
    · rcases hrs : (loadLayersAux rest (processGeoJson fc (some k) blackColor doc).1).2
        with e2 | allResults <;> rw [hrs] at h
      · simp at h
      · simp only [Prod.mk.injEq, Except.ok.injEq] at h
        obtain ⟨hd1, hres⟩ := h
        subst hres
        have haux : loadLayersAux rest (processGeoJson fc (some k) blackColor doc).1 =
            ((loadLayersAux rest (processGeoJson fc (some k) blackColor doc).1).1,
              Except.ok allResults) := Prod.ext rfl hrs
        obtain ⟨ihlen, ihall⟩ :=
          ih (processGeoJson fc (some k) blackColor doc).1 _ allResults haux
        refine ⟨by simp [ihlen], ?_⟩
        rw [List.all_cons]
        subst hd1
        refine (Bool.and_eq_true _ _).mpr ⟨?_, ihall⟩
        rcases hfe : fc.features with _ | ⟨f, fs⟩
        · simp
        · have hc : containsLayer
              (processGeoJson fc (some k) blackColor doc).1.layers k = true := by
            show containsLayer
              (processGeoJsonAux (some k) blackColor doc fc.features).1.layers k = true
            rw [hfe]
            exact aux_some_contains k blackColor f fs doc
          have hc2 := loadLayersAux_preserves_contains rest k
            (processGeoJson fc (some k) blackColor doc).1 hc
          simp [hc2]

/-- C9 counterexample: a mapping of the single key "L" to an empty
FeatureCollection: loadLayers returns one identifier list for the key (the
empty one) but creates NO layer named "L", because layer creation happens
inside the per-feature loop — contradicting the claim that a same-named
layer is created for each outer key. -/
theorem loadLayers_no_layer_for_empty_collection :
    loadLayers (fun _ => []) (RawLayersInput.dict [("L", ⟨[]⟩)]) emptyDoc =
      (emptyDoc, Except.ok [[]]) ∧
    containsLayer emptyDoc.layers "L" = false := ⟨rfl, rfl⟩

/-- C9 (amended): loadLayers decodes serialized text first (then behaves
exactly as on the decoded mapping); on success it returns one identifier
list per layer key, in the mapping's iteration order, each FeatureCollection
being processed with destination layer equal to its outer key — and a
same-named layer exists afterwards for every key whose collection contains
at least one feature (an empty collection creates no layer). -/
theorem loadLayers_amended (decode : String → List (String × FeatureCollection))
    (s : String) (d : List (String × FeatureCollection)) (doc d1 : RhinoDoc)
    (res : List (List GuidResult))
    (h : loadLayers decode (RawLayersInput.dict d) doc = (d1, Except.ok res)) :
    loadLayers decode (RawLayersInput.str s) doc =
      loadLayers decode (RawLayersInput.dict (decode s)) doc ∧
    res.length = d.length ∧
    (d.all (fun kfc => kfc.2.features.isEmpty ||
      containsLayer d1.layers kfc.1)) = true := by
  obtain ⟨hlen, hall⟩ := loadLayersAux_spec d doc d1 res h
  exact ⟨rfl, hlen, hall⟩

/-- C9 witness: a single layer key "L1" holding one Point feature: the
result has one identifier list, and the final document contains a layer
named "L1". -/
theorem loadLayers_amended_witness :
    loadLayers (fun _ => []) (RawLayersInput.str "x") emptyDoc =
      loadLayers (fun _ => []) (RawLayersInput.dict ((fun (_ : String) =>
        ([] : List (String × FeatureCollection))) "x")) emptyDoc ∧
    ([[GuidResult.single 0]] : List (List GuidResult)).length =
      ([("L1", (⟨[⟨[], ⟨"Point", JVal.jarr [JVal.jnum 102, JVal.jnum 1]⟩⟩]⟩ :
        FeatureCollection))] : List (String × FeatureCollection)).length ∧
    (([("L1", (⟨[⟨[], ⟨"Point", JVal.jarr [JVal.jnum 102, JVal.jnum 1]⟩⟩]⟩ :
        FeatureCollection))] : List (String × FeatureCollection)).all
      (fun kfc => kfc.2.features.isEmpty ||
        containsLayer (⟨[⟨"L1", blackColor⟩],
          [⟨.gPt ⟨102, 1, 0⟩, ⟨0, []⟩⟩]⟩ : RhinoDoc).layers kfc.1)) = true :=
  loadLayers_amended (fun _ => []) "x"
    [("L1", ⟨[⟨[], ⟨"Point", JVal.jarr [JVal.jnum 102, JVal.jnum 1]⟩⟩]⟩)]
    emptyDoc
    ⟨[⟨"L1", blackColor⟩], [⟨.gPt ⟨102, 1, 0⟩, ⟨0, []⟩⟩]⟩
    [[GuidResult.single 0]] rfl

example : pyStr (JVal.jnum 0) = "0.0" := rfl
example : pyStr (JVal.jnum (mkRat 205 2)) = "102.5" := rfl
example : pyStr (JVal.jint (-3)) = "-3" := rfl
example :
    processFeature none blackColor emptyDoc
      ⟨[("prop1", JVal.jnum 0)], ⟨"Point", JVal.jarr [JVal.jnum 102, JVal.jnum 1]⟩⟩ =
    (⟨[], [⟨.gPt ⟨102, 1, 0⟩, ⟨0, [("prop1", "0.0")]⟩⟩]⟩, Except.ok (.single 0)) := rfl
